import Mathlib

/-!
A shallow embedding of `src/synth_minidump.rs` (a writer of synthetic
minidumps) together with a model of the deferred-value byte assembler it is
built on (`test_assembler`'s `Label`/`Section`, an external crate; modelled
from the spec, sections 4.1 and 4.2).  Machine integers are `Nat` with
explicit truncation where the code truncates; fallible finalization returns
`Option`.
-/

namespace Minidump

/-- Endianness of a byte section (`test_assembler::Endian`). -/
inductive Endian : Type
  | big
  | little
  deriving DecidableEq, Repr

/-- Little-endian byte serialization of `v` into `w` bytes (low byte first,
truncating at `2 ^ (8 * w)` the way a Rust `as`-cast / fixed-width write
does). -/
def serializeLE : Nat → Nat → List Nat
  | 0, _ => []
  | w + 1, v => v % 256 :: serializeLE w (v / 256)

/-- Serialization of `v` into `w` bytes in endianness `e`. -/
def serialize (e : Endian) (w v : Nat) : List Nat :=
  match e with
  | .little => serializeLE w v
  | .big => (serializeLE w v).reverse

@[simp] theorem serializeLE_length (w v : Nat) : (serializeLE w v).length = w := by
  induction w generalizing v with
  | zero => rfl
  | succ w ih => simp [serializeLE, ih]

@[simp] theorem serialize_length (e : Endian) (w v : Nat) : (serialize e w v).length = w := by
  cases e <;> simp [serialize]

/-- Modelled from the spec: a deferred value ("Label") is an unresolved
numeric cell that can later be fixed to a constant or defined relative to
another deferred value.  A label is identified by a `Nat` id; its binding is
one of: a constant, "the other label's value plus an offset" (produced by
`mark` / `append_section`), or unconstrained. -/
inductive Binding : Type
  | constB (v : Nat)
  | fromLab (l : Nat) (off : Nat)
  | unconstrained
  deriving DecidableEq, Repr

/-- The label environment: newest binding first. -/
def lookupB : List (Nat × Binding) → Nat → Binding
  | [], _ => .unconstrained
  | (k, b) :: rest, l => if k = l then b else lookupB rest l

/-- Modelled from the spec: resolving a deferred value follows its chain of
relative bindings down to a constant; an unconstrained cell (or a cycle,
which exhausts the fuel) yields `none` ("unresolved"). -/
def resolve (env : List (Nat × Binding)) : Nat → Nat → Option Nat
  | 0, _ => none
  | fuel + 1, l =>
    match lookupB env l with
    | .constB v => some v
    | .fromLab l2 off => (resolve env fuel l2).map (fun v => off + v)
    | .unconstrained => none

/-- The global assembler state: the label environment plus a fresh-id
counter (in the source, labels are shared mutable `Rc` cells; here the
sharing is explicit state). -/
structure Asm : Type where
  env : List (Nat × Binding)
  next : Nat
  deriving DecidableEq, Repr

def Asm.init : Asm := ⟨[], 0⟩

/-- `Label::new()`: allocate a fresh, unconstrained label. -/
def Asm.fresh (a : Asm) : Nat × Asm :=
  (a.next, ⟨a.env, a.next + 1⟩)

/-- `Label::set_const` / `Label::set`: bind a label (newest binding wins). -/
def Asm.bind (a : Asm) (l : Nat) (b : Binding) : Asm :=
  ⟨(l, b) :: a.env, a.next⟩

/-- `Label::value()`: resolve a label in the current environment. -/
def Asm.labelValue (a : Asm) (l : Nat) : Option Nat :=
  resolve a.env (a.env.length + 1) l

/-- One write operation recorded in a byte section: raw literal bytes, a
fixed-width integer literal, or a fixed-width reference to a deferred value
(patched at finalize).  Width is in bytes; each operation remembers the
endianness of the section it was appended to. -/
inductive Datum : Type
  | raw (bs : List Nat)
  | rep (b n : Nat)
  | num (e : Endian) (w : Nat) (v : Nat)
  | ref (e : Endian) (w : Nat) (l : Nat)
  deriving DecidableEq, Repr

/-- The serialized width in bytes of one write operation (known statically,
before deferred values resolve). -/
def Datum.width : Datum → Nat
  | .raw bs => bs.length
  | .rep _ n => n
  | .num _ w _ => w
  | .ref _ w _ => w

/-- Modelled from the spec: an append-only byte buffer over a fixed
endianness (`test_assembler::Section`), with a `start` label ("my offset in
the final file") and a `final_size` label ("my eventual size"). -/
structure Section : Type where
  endian : Endian
  contents : List Datum
  startL : Nat
  finalSizeL : Nat
  deriving DecidableEq, Repr

/-- `Section::with_endian`: fresh section with fresh start / final-size
labels. -/
def Section.withEndian (e : Endian) (a : Asm) : Section × Asm :=
  let (s, a) := a.fresh
  let (f, a) := a.fresh
  (⟨e, [], s, f⟩, a)

/-- `Section::size()`: the current serialized size in bytes. -/
def Section.size (s : Section) : Nat :=
  (s.contents.map Datum.width).sum

/-- `Section::start()`. -/
def Section.start (s : Section) : Nat := s.startL

/-- `Section::final_size()`. -/
def Section.final_size (s : Section) : Nat := s.finalSizeL

/-- `Section::D32` with a literal `u32` value. -/
def Section.D32 (s : Section) (v : Nat) : Section :=
  { s with contents := s.contents ++ [.num s.endian 4 v] }

/-- `Section::D64` with a literal `u64` value. -/
def Section.D64 (s : Section) (v : Nat) : Section :=
  { s with contents := s.contents ++ [.num s.endian 8 v] }

/-- `Section::D32` with a `&Label` argument: a 4-byte deferred reference. -/
def Section.D32L (s : Section) (l : Nat) : Section :=
  { s with contents := s.contents ++ [.ref s.endian 4 l] }

/-- `Section::D64` with a `&Label` argument: an 8-byte deferred reference. -/
def Section.D64L (s : Section) (l : Nat) : Section :=
  { s with contents := s.contents ++ [.ref s.endian 8 l] }

/-- `Section::append_bytes`. -/
def Section.append_bytes (s : Section) (bs : List Nat) : Section :=
  { s with contents := s.contents ++ [.raw bs] }

/-- `Section::append_repeated`: `n` copies of byte `b`. -/
def Section.append_repeated (s : Section) (b n : Nat) : Section :=
  { s with contents := s.contents ++ [.rep b n] }

/-- `Section::mark(&label)`: bind `label` to the current write offset,
relative to this section's start. -/
def Section.mark (s : Section) (l : Nat) (a : Asm) : Section × Asm :=
  (s, a.bind l (.fromLab s.startL s.size))

/-- `Section::append_section`: splice a complete child section onto the
tail; the child's start label is bound relative to the parent's start at the
current size, the child's final-size label is bound to the child's size, and
the child's write operations are appended (their own relative marks are
rebased through the start-label chain). -/
def Section.append_section (s child : Section) (a : Asm) : Section × Asm :=
  let a := a.bind child.startL (.fromLab s.startL s.size)
  let a := a.bind child.finalSizeL (.constB child.size)
  ({ s with contents := s.contents ++ child.contents }, a)

/-- Resolve one write operation to its bytes (`none` iff it references an
unresolved deferred value). -/
def resolveDatum (env : List (Nat × Binding)) (fuel : Nat) : Datum → Option (List Nat)
  | .raw bs => some bs
  | .rep b n => some (List.replicate n b)
  | .num e w v => some (serialize e w v)
  | .ref e w l => (resolve env fuel l).map (serialize e w)

/-- `Section::get_contents()`: bind the section's final-size label to its
size, then resolve every write operation in order; `none` if any deferred
value is still unresolved. -/
def Section.get_contents (s : Section) (a : Asm) : Option (List Nat) :=
  let env := (s.finalSizeL, Binding.constB s.size) :: a.env
  let fuel := env.length + 1
  (s.contents.mapM (resolveDatum env fuel)).map List.flatten

/-! Constants from the `minidump_format` crate (fixed format constants,
consumed as opaque inputs). -/

def MD_HEADER_SIGNATURE : Nat := 0x504d444d
def MD_HEADER_VERSION : Nat := 0xa793
def MD_MISC_INFO_STREAM : Nat := 15
def MD_MISCINFO_FLAGS1_PROCESS_ID : Nat := 0x1
def MD_MISCINFO_FLAGS1_PROCESS_TIMES : Nat := 0x2

/-- Trait `DumpSection`: a block of data contained in a minidump.
`intoSection` is the `Into<Section>` conversion (it may bind labels and
allocate fresh ones, so it threads the assembler state). -/
class DumpSection (α : Type) where
  intoSection : α → Asm → Section × Asm
  file_offset : α → Nat
  file_size : α → Nat

/-- Default method `DumpSection::cite_location_in`: append an
`MDLocationDescriptor` (32-bit size then 32-bit offset) referring to this
section. -/
def cite_location_in [DumpSection α] (x : α) (s : Section) : Section :=
  (s.D32L (DumpSection.file_size x)).D32L (DumpSection.file_offset x)

/-- Trait `Stream`: a minidump stream, with a type tag for the directory. -/
class Stream (α : Type) extends DumpSection α where
  stream_type : α → Nat

/-- Default method `Stream::cite_stream_in`: append an `MDRawDirectory`
entry (stream type, then location descriptor) referring to this stream. -/
def cite_stream_in [Stream α] (x : α) (s : Section) : Section :=
  cite_location_in x (s.D32 (Stream.stream_type x))

instance : DumpSection Section where
  intoSection s a := (s, a)
  file_offset s := s.start
  file_size s := s.final_size

/-- A writer of synthetic minidumps (`struct SynthMinidump`; the Rust field
`section` is named `sect` here because `section` is a Lean keyword). -/
structure SynthMinidump : Type where
  /-- The `Section` containing the minidump contents. -/
  sect : Section
  /-- The minidump flags label, for the header. -/
  flags : Nat
  /-- The number of streams. -/
  stream_count : Nat
  /-- The number of streams, as a label for the header. -/
  stream_count_label : Nat
  /-- The directory's file offset label, for the header. -/
  stream_directory_rva : Nat
  /-- The contents of the stream directory. -/
  stream_directory : Section
  deriving DecidableEq, Repr

/-- `SynthMinidump::with_endian`. -/
def SynthMinidump.with_endian (endian : Endian) (a : Asm) : SynthMinidump × Asm :=
  let (flags, a) := a.fresh
  let (stream_count_label, a) := a.fresh
  let (stream_directory_rva, a) := a.fresh
  let (s0, a) := Section.withEndian endian a
  let sect :=
    ((((((s0.D32 MD_HEADER_SIGNATURE).D32
      MD_HEADER_VERSION).D32L
      stream_count_label).D32L
      stream_directory_rva).D32
      0).D32
      1262805309).D64L
      flags
  let a := a.bind sect.start (.constB 0)
  let (dir, a) := Section.withEndian endian a
  (⟨sect, flags, 0, stream_count_label, stream_directory_rva, dir⟩, a)

/-- `SynthMinidump::flags`: set the minidump flags. -/
def SynthMinidump.setFlags (m : SynthMinidump) (flags : Nat) (a : Asm) :
    SynthMinidump × Asm :=
  (m, a.bind m.flags (.constB flags))

/-- `SynthMinidump::add`: append a dump section, marking its offset and
splicing it into the main section. -/
def SynthMinidump.add [DumpSection α] (m : SynthMinidump) (x : α) (a : Asm) :
    SynthMinidump × Asm :=
  let offset := DumpSection.file_offset x
  let (sect1, a) := m.sect.mark offset a
  let (child, a) := DumpSection.intoSection x a
  let (sect2, a) := sect1.append_section child a
  ({ m with sect := sect2 }, a)

/-- `SynthMinidump::add_stream`: cite the stream in the directory, bump the
counter, then `add` it. -/
def SynthMinidump.add_stream [Stream α] (m : SynthMinidump) (x : α) (a : Asm) :
    SynthMinidump × Asm :=
  let m := { m with
    stream_directory := cite_stream_in x m.stream_directory,
    stream_count := m.stream_count + 1 }
  m.add x a

/-- `SynthMinidump::finish`: default the flags to 0 if never set, bind the
stream count, splice the directory onto the tail (marking its offset in the
header), and resolve everything to bytes. -/
def SynthMinidump.finish (m : SynthMinidump) (a : Asm) : Option (List Nat) :=
  let a := if (a.labelValue m.flags).isNone then a.bind m.flags (.constB 0) else a
  let a := a.bind m.stream_count_label (.constB m.stream_count)
  let (sect1, a) := m.sect.mark m.stream_directory_rva a
  let (sect2, a) := sect1.append_section m.stream_directory a
  sect2.get_contents a

/-- A stream of arbitrary data (`struct SimpleStream`). -/
structure SimpleStream : Type where
  stream_type : Nat
  sect : Section
  deriving DecidableEq, Repr

instance : DumpSection SimpleStream where
  intoSection x a := (x.sect, a)
  file_offset x := x.sect.start
  file_size x := x.sect.final_size

instance : Stream SimpleStream where
  stream_type x := x.stream_type

/-- A stream containing a list of dump entries (`struct List<T>` in the
source; named `MDList` because `List` is Lean's list type). -/
structure MDList : Type where
  stream_type : Nat
  sect : Section
  count : Nat
  count_label : Nat
  deriving DecidableEq, Repr

/-- `List::new`. -/
def MDList.new (stream_type : Nat) (endian : Endian) (a : Asm) : MDList × Asm :=
  let (count_label, a) := a.fresh
  let (s0, a) := Section.withEndian endian a
  (⟨stream_type, s0.D32L count_label, 0, count_label⟩, a)

/-- `List::add`: mark the entry's offset, splice it in, bump the count. -/
def MDList.add [DumpSection α] (l : MDList) (entry : α) (a : Asm) : MDList × Asm :=
  let (sect1, a) := l.sect.mark (DumpSection.file_offset entry) a
  let (child, a) := DumpSection.intoSection entry a
  let (sect2, a) := sect1.append_section child a
  ({ l with sect := sect2, count := l.count + 1 }, a)

instance : DumpSection MDList where
  intoSection l a := (l.sect, a.bind l.count_label (.constB l.count))
  file_offset l := l.sect.start
  file_size l := l.sect.final_size

instance : Stream MDList where
  stream_type l := l.stream_type

/-- UTF-16LE encoding of one Unicode scalar value: 2 bytes (low byte first)
for the BMP, a 4-byte surrogate pair above it. -/
def utf16leChar (c : Char) : List Nat :=
  let v := c.toNat
  if v < 0x10000 then
    [v % 256, v / 256]
  else
    let v' := v - 0x10000
    let hi := 0xd800 + v' / 0x400
    let lo := 0xdc00 + v' % 0x400
    [hi % 256, hi / 256, lo % 256, lo / 256]

/-- The `UTF_16LE` codec of the external `encoding` crate: UTF-16LE encodes
every Unicode scalar value, so on Rust strings it is total. -/
def utf16leEncode (s : String) : List Nat :=
  s.data.flatMap utf16leChar

/-- An `MDString`, a UTF-16 string preceded by a 4-byte length
(`struct DumpString`). -/
structure DumpString : Type where
  sect : Section
  deriving DecidableEq, Repr

/-- The body of `DumpString::new` after the codec call: a 4-byte length of
the encoded form, then the encoded bytes. -/
def DumpString.ofEncoded (u16s : List Nat) (endian : Endian) (a : Asm) :
    DumpString × Asm :=
  let (s0, a) := Section.withEndian endian a
  (⟨(s0.D32 u16s.length).append_bytes u16s⟩, a)

/-- Outcome of a constructor that calls a fallible collaborator: it returns
normally, returns the collaborator's error to its caller, or panics. -/
inductive BuildOutcome (α : Type) : Type
  | ok (x : α)
  | err
  | panicked
  deriving DecidableEq, Repr

/-- `DumpString::new` with the codec abstracted as in the spec ("encode(text)
→ byte sequence, fails on non-encodable input").  The source calls
`.unwrap()` on the codec's result, so a codec failure panics; the error is
never returned to the caller. -/
def DumpString.newWithCodec (codec : String → Option (List Nat)) (s : String)
    (endian : Endian) (a : Asm) : BuildOutcome (DumpString × Asm) :=
  match codec s with
  | some u16s => .ok (DumpString.ofEncoded u16s endian a)
  | none => .panicked

/-- `DumpString::new` with the actual `UTF_16LE` codec, which never fails
(so the `.unwrap()` always succeeds). -/
def DumpString.new (s : String) (endian : Endian) (a : Asm) : DumpString × Asm :=
  DumpString.ofEncoded (utf16leEncode s) endian a

instance : DumpSection DumpString where
  intoSection x a := (x.sect, a)
  file_offset x := x.sect.start
  file_size x := x.sect.final_size

/-- `MDRawMiscInfo` stream (`struct MiscStream`). -/
structure MiscStream : Type where
  sect : Section
  process_id : Option Nat
  process_create_time : Option Nat
  pad_to_size : Option Nat
  deriving DecidableEq, Repr

/-- `MiscStream::new`: the first 4 bytes are a reference to the section's
own final-size label (`section.final_size()`), resolved at finalization. -/
def MiscStream.new (endian : Endian) (a : Asm) : MiscStream × Asm :=
  let (s0, a) := Section.withEndian endian a
  let size := s0.final_size
  (⟨s0.D32L size, none, none, none⟩, a)

/-- `Into<Section> for MiscStream`: append the flags bitmask (deferred),
the process-id field (or 0), the 12-byte time block (or zeros), then pad
with zeros up to `pad_to_size` if requested.  The pad length is
`pad_to_size - section.size()` as a wrapping `u64` subtraction (the release
semantics of the Rust `-`), i.e. modulo `2 ^ 64`. -/
def MiscStream.intoSection (m : MiscStream) (a : Asm) : Section × Asm :=
  let (flags_label, a) := a.fresh
  let sect := m.sect.D32L flags_label
  let flags0 : Nat := 0
  let (flags1, sect) :=
    match m.process_id with
    | some pid => (flags0 ||| MD_MISCINFO_FLAGS1_PROCESS_ID, sect.D32 pid)
    | none => (flags0, sect.D32 0)
  let (flags2, sect) :=
    match m.process_create_time with
    | some time => (flags1 ||| MD_MISCINFO_FLAGS1_PROCESS_TIMES,
        ((sect.D32 time).D32 0).D32 0)
    | none => (flags1, ((sect.D32 0).D32 0).D32 0)
  let a := a.bind flags_label (.constB flags2)
  match m.pad_to_size with
  | some size =>
    let padLen := (((size : Int) - (sect.size : Int)) % (2 ^ 64 : Int)).toNat
    (sect.append_repeated 0 padLen, a)
  | none => (sect, a)

instance : DumpSection MiscStream where
  intoSection := MiscStream.intoSection
  file_offset m := m.sect.start
  file_size m := m.sect.final_size

instance : Stream MiscStream where
  stream_type _ := MD_MISC_INFO_STREAM

/-! Size bookkeeping lemmas: every write operation has a statically known
width, so a section's size is computed structurally. -/

@[simp] theorem size_withEndian (e : Endian) (a : Asm) :
    (Section.withEndian e a).1.size = 0 := rfl

@[simp] theorem size_D32 (s : Section) (v : Nat) : (s.D32 v).size = s.size + 4 := by
  simp [Section.size, Section.D32, Datum.width]

@[simp] theorem size_D64 (s : Section) (v : Nat) : (s.D64 v).size = s.size + 8 := by
  simp [Section.size, Section.D64, Datum.width]

@[simp] theorem size_D32L (s : Section) (l : Nat) : (s.D32L l).size = s.size + 4 := by
  simp [Section.size, Section.D32L, Datum.width]

@[simp] theorem size_D64L (s : Section) (l : Nat) : (s.D64L l).size = s.size + 8 := by
  simp [Section.size, Section.D64L, Datum.width]

@[simp] theorem size_append_bytes (s : Section) (bs : List Nat) :
    (s.append_bytes bs).size = s.size + bs.length := by
  simp [Section.size, Section.append_bytes, Datum.width]

@[simp] theorem size_append_repeated (s : Section) (b n : Nat) :
    (s.append_repeated b n).size = s.size + n := by
  simp [Section.size, Section.append_repeated, Datum.width]

@[simp] theorem size_mark (s : Section) (l : Nat) (a : Asm) :
    ((s.mark l a).1).size = s.size := rfl

@[simp] theorem size_append_section (s child : Section) (a : Asm) :
    ((s.append_section child a).1).size = s.size + child.size := by
  simp [Section.size, Section.append_section]

/-- If any element of the list fails, the whole `Option`-monadic map
fails. -/
theorem mapM_eq_none_of_mem {α β : Type} (f : α → Option β) (l : List α) (x : α)
    (hx : x ∈ l) (h : f x = none) : l.mapM f = none := by
  induction l with
  | nil => cases hx
  | cons y t ih =>
    rw [List.mapM_cons]
    rcases List.mem_cons.mp hx with rfl | ht
    · rw [h]; rfl
    · cases hfy : f y with
      | none => rfl
      | some b => rw [ih ht]; rfl

/-- The header bytes produced by `SynthMinidump`, with the given resolved
stream count, directory offset and flags. -/
def headerBytes (e : Endian) (count rva flagsV : Nat) : List Nat :=
  serialize e 4 MD_HEADER_SIGNATURE ++ serialize e 4 MD_HEADER_VERSION ++
    serialize e 4 count ++ serialize e 4 rva ++ serialize e 4 0 ++
    serialize e 4 1262805309 ++ serialize e 8 flagsV

@[simp] theorem headerBytes_length (e : Endian) (count rva flagsV : Nat) :
    (headerBytes e count rva flagsV).length = 32 := by
  simp [headerBytes]

/-! The claims. -/

/-- C2: for every endianness `E` and 64-bit flags value `F`, an assembler
created with endianness `E`, given flags `F`, and finalized with no streams
produces bytes whose first 4 bytes are the header signature constant in
`E`'s byte order and whose last 8 bytes are `F` in `E`'s byte order. -/
theorem c2_header_signature_and_flags (e : Endian) (f : Nat) (hf : f < 2 ^ 64) :
    ∃ out : List Nat,
      (let (m, a) := SynthMinidump.with_endian e Asm.init
       let (m, a) := m.setFlags f a
       m.finish a) = some out ∧
      out.take 4 = serialize e 4 MD_HEADER_SIGNATURE ∧
      out.drop (out.length - 8) = serialize e 8 f := by
  refine ⟨headerBytes e 0 32 f, ?_, ?_, ?_⟩
  · simp [SynthMinidump.with_endian, SynthMinidump.setFlags, SynthMinidump.finish,
      Section.withEndian, Asm.init, Asm.fresh, Asm.bind, Asm.labelValue,
      Section.D32, Section.D64, Section.D32L, Section.D64L, Section.mark,
      Section.append_section, Section.get_contents, Section.size, Section.start,
      Section.final_size, Datum.width, resolve, lookupB, resolveDatum,
      List.mapM_cons, List.mapM_nil, List.mapM.loop, headerBytes]
  · rw [headerBytes, List.take_append_of_le_length (by simp)]
    simp
  · rw [show headerBytes e 0 32 f =
      (serialize e 4 MD_HEADER_SIGNATURE ++ serialize e 4 MD_HEADER_VERSION ++
        serialize e 4 0 ++ serialize e 4 32 ++ serialize e 4 0 ++
        serialize e 4 1262805309) ++ serialize e 8 f by simp [headerBytes]]
    rw [List.drop_left' (by simp)]

/-- C2 witness. -/
theorem c2_header_signature_and_flags_witness :
    ∃ out : List Nat,
      (let (m, a) := SynthMinidump.with_endian Endian.little Asm.init
       let (m, a) := m.setFlags 0x9f738b33685cc84c a
       m.finish a) = some out ∧
      out.take 4 = serialize Endian.little 4 MD_HEADER_SIGNATURE ∧
      out.drop (out.length - 8) = serialize Endian.little 8 0x9f738b33685cc84c :=
  c2_header_signature_and_flags Endian.little 0x9f738b33685cc84c (by norm_num)

/-- A section whose contents reference a label that (after all the bindings
in `a`) is still unconstrained, and that is not the section's own final-size
label, cannot be finalized: `get_contents` is `none`. -/
theorem get_contents_none_of_unbound_ref (s : Section) (a : Asm)
    (de : Endian) (w l : Nat)
    (hmem : Datum.ref de w l ∈ s.contents)
    (hne : l ≠ s.finalSizeL)
    (hunb : lookupB a.env l = .unconstrained) :
    s.get_contents a = none := by
  rw [Section.get_contents]
  refine Option.map_eq_none.mpr (mapM_eq_none_of_mem _ _ _ hmem ?_)
  rw [resolveDatum]
  have hlook : lookupB ((s.finalSizeL, Binding.constB s.size) :: a.env) l =
      .unconstrained := by
    simp [lookupB, Ne.symm hne]
    exact hunb
  rw [show ((s.finalSizeL, Binding.constB s.size) :: a.env).length + 1 =
    (a.env.length + 1) + 1 by simp]
  rw [resolve, hlook]
  rfl

/-- C3: at finalize the flags value, if never set, is defaulted to 0 and
finalization still produces output; this defaulting applies only to the
flags label: a minidump whose spliced contents reference any other label
that is still unbound when `finish` is called (and is not one of the labels
`finish` itself binds: the stream count, the directory offset, the
directory's own start / final-size, or the main section's final size) yields
`none`, not bytes. -/
theorem c3_flags_default_only (e : Endian) (m : SynthMinidump) (a : Asm)
    (de : Endian) (w l : Nat)
    (hmem : Datum.ref de w l ∈ m.sect.contents)
    (hunb : lookupB a.env l = .unconstrained)
    (h1 : l ≠ m.flags) (h2 : l ≠ m.stream_count_label)
    (h3 : l ≠ m.stream_directory_rva)
    (h4 : l ≠ m.stream_directory.startL) (h5 : l ≠ m.stream_directory.finalSizeL)
    (h6 : l ≠ m.sect.finalSizeL) :
    ((SynthMinidump.with_endian e Asm.init).1.finish
        (SynthMinidump.with_endian e Asm.init).2 = some (headerBytes e 0 32 0)) ∧
      m.finish a = none := by
  constructor
  · simp [SynthMinidump.with_endian, SynthMinidump.finish,
      Section.withEndian, Asm.init, Asm.fresh, Asm.bind, Asm.labelValue,
      Section.D32, Section.D64, Section.D32L, Section.D64L, Section.mark,
      Section.append_section, Section.get_contents, Section.size, Section.start,
      Section.final_size, Datum.width, resolve, lookupB, resolveDatum,
      List.mapM_cons, List.mapM_nil, List.mapM.loop, headerBytes]
  · rw [SynthMinidump.finish]
    by_cases hfl : (a.labelValue m.flags).isNone
    · simp only [hfl, if_pos]
      refine get_contents_none_of_unbound_ref _ _ de w l ?_ ?_ ?_
      · simp [Section.mark, Section.append_section]
        exact Or.inl hmem
      · simpa [Section.mark, Section.append_section] using h6
      · simp [Section.mark, Section.append_section, Asm.bind, lookupB,
          Ne.symm h1, Ne.symm h2, Ne.symm h3, Ne.symm h4, Ne.symm h5]
        exact hunb
    · simp only [hfl, if_neg]
      refine get_contents_none_of_unbound_ref _ _ de w l ?_ ?_ ?_
      · simp [Section.mark, Section.append_section]
        exact Or.inl hmem
      · simpa [Section.mark, Section.append_section] using h6
      · simp [Section.mark, Section.append_section, Asm.bind, lookupB,
          Ne.symm h2, Ne.symm h3, Ne.symm h4, Ne.symm h5]
        exact hunb

/-- A minidump containing a section that references a label nobody ever
binds (an internal construction defect). -/
def c3BadDump : SynthMinidump × Asm :=
  let (m, a) := SynthMinidump.with_endian Endian.little Asm.init
  let (badL, a) := a.fresh
  let (s, a) := Section.withEndian Endian.little a
  m.add (s.D32L badL) a

/-- C3 witness. -/
theorem c3_flags_default_only_witness :
    ((SynthMinidump.with_endian Endian.little Asm.init).1.finish
        (SynthMinidump.with_endian Endian.little Asm.init).2 =
      some (headerBytes Endian.little 0 32 0)) ∧
      c3BadDump.1.finish c3BadDump.2 = none :=
  c3_flags_default_only Endian.little c3BadDump.1 c3BadDump.2 Endian.little 4 7
    (by decide) (by decide) (by decide) (by decide) (by decide) (by decide)
    (by decide) (by decide)

/-- C7: an empty list stream serializes (on conversion to a plain section)
to exactly a 4-byte zero count; a list with the two string entries "a" and
"b" serializes to a 4-byte count of 2 followed by each entry's 4-byte
encoded-byte-length and encoded bytes, in add-order. -/
theorem c7_list_round_trip (e : Endian) :
    ((let a := Asm.init
      let (l, a) := MDList.new 0x11223344 e a
      let (sec, a) := DumpSection.intoSection l a
      sec.get_contents a) = some [0, 0, 0, 0]) ∧
      ((let a := Asm.init
        let (l, a) := MDList.new 0x11223344 e a
        let (sa, a) := DumpString.new "a" e a
        let (l, a) := l.add sa a
        let (sb, a) := DumpString.new "b" e a
        let (l, a) := l.add sb a
        let (sec, a) := DumpSection.intoSection l a
        sec.get_contents a) =
        some (serialize e 4 2 ++
          (serialize e 4 2 ++ [0x61, 0]) ++ (serialize e 4 2 ++ [0x62, 0]))) := by
  cases e <;> exact ⟨by decide, by decide⟩

/-- The misc-info stream of the C4 counterexample: a process id is present
and a pad-to-size of 40 is requested. -/
def c4Misc : Section × Asm :=
  let a := Asm.init
  let (ms, a) := MiscStream.new Endian.little a
  ({ ms with process_id := some 0x1234, pad_to_size := some 40 } : MiscStream).intoSection a

/-- C4 counterexample: with an optional field and pad-to-size present, the
4-byte declared-length field resolves to 40 — the stream's full actual
serialized size, padding included — not to a length computed from the empty
record shape, and it does not disagree with the actual size. -/
theorem c4_counterexample :
    c4Misc.1.get_contents c4Misc.2 =
      some ([40, 0, 0, 0, 1, 0, 0, 0, 0x34, 0x12, 0, 0, 0, 0, 0, 0, 0, 0, 0, 0,
        0, 0, 0, 0] ++ List.replicate 16 0) ∧
      ([40, 0, 0, 0, 1, 0, 0, 0, 0x34, 0x12, 0, 0, 0, 0, 0, 0, 0, 0, 0, 0,
        0, 0, 0, 0] ++ List.replicate 16 0).take 4 =
        serialize Endian.little 4
          ([40, 0, 0, 0, 1, 0, 0, 0, 0x34, 0x12, 0, 0, 0, 0, 0, 0, 0, 0, 0, 0,
            0, 0, 0, 0] ++ List.replicate 16 0).length := by
  exact ⟨by decide, by decide⟩

/-- Conversion of a misc-info stream (with the given optional fields) to a
plain section, then finalization of that section alone. -/
def miscContents (e : Endian) (pid t padOpt : Option Nat) (a : Asm) : Option (List Nat) :=
  let (ms, a') := MiscStream.new e a
  let ms := { ms with process_id := pid, process_create_time := t, pad_to_size := padOpt }
  let (sec, a'') := ms.intoSection a'
  sec.get_contents a''

/-- C4 amended: the declared-length field is a deferred reference to the
section's final-size label, created at construction but resolved at
finalization to the stream's full actual serialized size (optional fields
and padding included) — so it always equals the actual size, for every
combination of optional fields and pad request. -/
theorem c4_amended_declared_length (e : Endian) (pid t padOpt : Option Nat) (a : Asm) :
    ∃ bs : List Nat,
      miscContents e pid t padOpt a = some bs ∧
      bs.take 4 = serialize e 4 bs.length := by
  rcases pid with _ | pv <;> rcases t with _ | tv <;> rcases padOpt with _ | p
  · refine ⟨serialize e 4 24 ++ serialize e 4 0 ++ serialize e 4 0 ++
      serialize e 4 0 ++ serialize e 4 0 ++ serialize e 4 0, by
        simp [miscContents, MiscStream.new, MiscStream.intoSection,
          Section.withEndian, Asm.fresh, Asm.bind,
          Section.D32, Section.D32L, Section.append_repeated, Section.mark,
          Section.get_contents, Section.size, Section.start, Section.final_size,
          Datum.width, resolve, lookupB, resolveDatum,
          List.mapM_cons, List.mapM_nil, List.mapM.loop, ← Nat.add_assoc,
          MD_MISCINFO_FLAGS1_PROCESS_ID, MD_MISCINFO_FLAGS1_PROCESS_TIMES], ?_⟩
    rw [List.take_append_of_le_length (by simp)]
    simp
  · refine ⟨serialize e 4 (24 + (((p : Int) - 24) % (2 ^ 64 : Int)).toNat) ++
      serialize e 4 0 ++ serialize e 4 0 ++ serialize e 4 0 ++
      serialize e 4 0 ++ serialize e 4 0 ++
      List.replicate ((((p : Int) - 24) % (2 ^ 64 : Int)).toNat) 0, by
        simp [miscContents, MiscStream.new, MiscStream.intoSection,
          Section.withEndian, Asm.fresh, Asm.bind,
          Section.D32, Section.D32L, Section.append_repeated, Section.mark,
          Section.get_contents, Section.size, Section.start, Section.final_size,
          Datum.width, resolve, lookupB, resolveDatum,
          List.mapM_cons, List.mapM_nil, List.mapM.loop, ← Nat.add_assoc,
          MD_MISCINFO_FLAGS1_PROCESS_ID, MD_MISCINFO_FLAGS1_PROCESS_TIMES], ?_⟩
    rw [List.take_append_of_le_length (by simp)]
    rw [List.take_append_of_le_length (by simp)]
    rw [List.take_append_of_le_length (by simp)]
    rw [List.take_append_of_le_length (by simp)]
    rw [List.take_append_of_le_length (by simp)]
    rw [List.take_append_of_le_length (by simp)]
    rw [List.take_of_length_le (by simp)]
    congr 1
    simp [← Nat.add_assoc]
  · refine ⟨serialize e 4 24 ++ serialize e 4 2 ++ serialize e 4 0 ++
      serialize e 4 tv ++ serialize e 4 0 ++ serialize e 4 0, by
        simp [miscContents, MiscStream.new, MiscStream.intoSection,
          Section.withEndian, Asm.fresh, Asm.bind,
          Section.D32, Section.D32L, Section.append_repeated, Section.mark,
          Section.get_contents, Section.size, Section.start, Section.final_size,
          Datum.width, resolve, lookupB, resolveDatum,
          List.mapM_cons, List.mapM_nil, List.mapM.loop, ← Nat.add_assoc,
          MD_MISCINFO_FLAGS1_PROCESS_ID, MD_MISCINFO_FLAGS1_PROCESS_TIMES], ?_⟩
    rw [List.take_append_of_le_length (by simp)]
    simp
  · refine ⟨serialize e 4 (24 + (((p : Int) - 24) % (2 ^ 64 : Int)).toNat) ++
      serialize e 4 2 ++ serialize e 4 0 ++ serialize e 4 tv ++
      serialize e 4 0 ++ serialize e 4 0 ++
      List.replicate ((((p : Int) - 24) % (2 ^ 64 : Int)).toNat) 0, by
        simp [miscContents, MiscStream.new, MiscStream.intoSection,
          Section.withEndian, Asm.fresh, Asm.bind,
          Section.D32, Section.D32L, Section.append_repeated, Section.mark,
          Section.get_contents, Section.size, Section.start, Section.final_size,
          Datum.width, resolve, lookupB, resolveDatum,
          List.mapM_cons, List.mapM_nil, List.mapM.loop, ← Nat.add_assoc,
          MD_MISCINFO_FLAGS1_PROCESS_ID, MD_MISCINFO_FLAGS1_PROCESS_TIMES], ?_⟩
    rw [List.take_append_of_le_length (by simp)]
    rw [List.take_append_of_le_length (by simp)]
    rw [List.take_append_of_le_length (by simp)]
    rw [List.take_append_of_le_length (by simp)]
    rw [List.take_append_of_le_length (by simp)]
    rw [List.take_append_of_le_length (by simp)]
    rw [List.take_of_length_le (by simp)]
    congr 1
    simp [← Nat.add_assoc]
  · refine ⟨serialize e 4 24 ++ serialize e 4 1 ++ serialize e 4 pv ++
      serialize e 4 0 ++ serialize e 4 0 ++ serialize e 4 0, by
        simp [miscContents, MiscStream.new, MiscStream.intoSection,
          Section.withEndian, Asm.fresh, Asm.bind,
          Section.D32, Section.D32L, Section.append_repeated, Section.mark,
          Section.get_contents, Section.size, Section.start, Section.final_size,
          Datum.width, resolve, lookupB, resolveDatum,
          List.mapM_cons, List.mapM_nil, List.mapM.loop, ← Nat.add_assoc,
          MD_MISCINFO_FLAGS1_PROCESS_ID, MD_MISCINFO_FLAGS1_PROCESS_TIMES], ?_⟩
    rw [List.take_append_of_le_length (by simp)]
    simp
  · refine ⟨serialize e 4 (24 + (((p : Int) - 24) % (2 ^ 64 : Int)).toNat) ++
      serialize e 4 1 ++ serialize e 4 pv ++ serialize e 4 0 ++
      serialize e 4 0 ++ serialize e 4 0 ++
      List.replicate ((((p : Int) - 24) % (2 ^ 64 : Int)).toNat) 0, by
        simp [miscContents, MiscStream.new, MiscStream.intoSection,
          Section.withEndian, Asm.fresh, Asm.bind,
          Section.D32, Section.D32L, Section.append_repeated, Section.mark,
          Section.get_contents, Section.size, Section.start, Section.final_size,
          Datum.width, resolve, lookupB, resolveDatum,
          List.mapM_cons, List.mapM_nil, List.mapM.loop, ← Nat.add_assoc,
          MD_MISCINFO_FLAGS1_PROCESS_ID, MD_MISCINFO_FLAGS1_PROCESS_TIMES], ?_⟩
    rw [List.take_append_of_le_length (by simp)]
    rw [List.take_append_of_le_length (by simp)]
    rw [List.take_append_of_le_length (by simp)]
    rw [List.take_append_of_le_length (by simp)]
    rw [List.take_append_of_le_length (by simp)]
    rw [List.take_append_of_le_length (by simp)]
    rw [List.take_of_length_le (by simp)]
    congr 1
    simp [← Nat.add_assoc]
  · refine ⟨serialize e 4 24 ++ serialize e 4 3 ++ serialize e 4 pv ++
      serialize e 4 tv ++ serialize e 4 0 ++ serialize e 4 0, by
        simp [miscContents, MiscStream.new, MiscStream.intoSection,
          Section.withEndian, Asm.fresh, Asm.bind,
          Section.D32, Section.D32L, Section.append_repeated, Section.mark,
          Section.get_contents, Section.size, Section.start, Section.final_size,
          Datum.width, resolve, lookupB, resolveDatum,
          List.mapM_cons, List.mapM_nil, List.mapM.loop, ← Nat.add_assoc,
          MD_MISCINFO_FLAGS1_PROCESS_ID, MD_MISCINFO_FLAGS1_PROCESS_TIMES], ?_⟩
    rw [List.take_append_of_le_length (by simp)]
    simp
  · refine ⟨serialize e 4 (24 + (((p : Int) - 24) % (2 ^ 64 : Int)).toNat) ++
      serialize e 4 3 ++ serialize e 4 pv ++ serialize e 4 tv ++
      serialize e 4 0 ++ serialize e 4 0 ++
      List.replicate ((((p : Int) - 24) % (2 ^ 64 : Int)).toNat) 0, by
        simp [miscContents, MiscStream.new, MiscStream.intoSection,
          Section.withEndian, Asm.fresh, Asm.bind,
          Section.D32, Section.D32L, Section.append_repeated, Section.mark,
          Section.get_contents, Section.size, Section.start, Section.final_size,
          Datum.width, resolve, lookupB, resolveDatum,
          List.mapM_cons, List.mapM_nil, List.mapM.loop, ← Nat.add_assoc,
          MD_MISCINFO_FLAGS1_PROCESS_ID, MD_MISCINFO_FLAGS1_PROCESS_TIMES], ?_⟩
    rw [List.take_append_of_le_length (by simp)]
    rw [List.take_append_of_le_length (by simp)]
    rw [List.take_append_of_le_length (by simp)]
    rw [List.take_append_of_le_length (by simp)]
    rw [List.take_append_of_le_length (by simp)]
    rw [List.take_append_of_le_length (by simp)]
    rw [List.take_of_length_le (by simp)]
    congr 1
    simp [← Nat.add_assoc]

/-- C5 counterexample: with a codec that fails on "a", the string-unit
constructor does not return the codec's error to its caller — the source
calls `.unwrap()` on the codec result, which panics. -/
theorem c5_counterexample :
    ((fun _ : String => (none : Option (List Nat))) "a" = none) ∧
      DumpString.newWithCodec (fun _ => none) "a" Endian.little Asm.init ≠
        BuildOutcome.err := by
  exact ⟨rfl, by decide⟩

/-- C5 amended: on a codec failure the string-unit constructor panics (the
`.unwrap()` in the source) rather than returning the codec's error to the
caller; moreover with the UTF-16LE codec actually used every string encodes,
so the failure path is unreachable and construction always succeeds. -/
theorem c5_amended_unwrap_panics (codec : String → Option (List Nat))
    (s : String) (e : Endian) (a : Asm) (h : codec s = none) :
    DumpString.newWithCodec codec s e a = BuildOutcome.panicked ∧
      (∀ (s' : String) (e' : Endian) (a' : Asm),
        DumpString.newWithCodec (fun t => some (utf16leEncode t)) s' e' a' =
          BuildOutcome.ok (DumpString.new s' e' a')) := by
  refine ⟨?_, fun s' e' a' => rfl⟩
  simp [DumpString.newWithCodec, h]

/-- C5 amended witness. -/
theorem c5_amended_unwrap_panics_witness :
    DumpString.newWithCodec (fun _ => none) "x" Endian.little Asm.init =
        BuildOutcome.panicked ∧
      (∀ (s' : String) (e' : Endian) (a' : Asm),
        DumpString.newWithCodec (fun t => some (utf16leEncode t)) s' e' a' =
          BuildOutcome.ok (DumpString.new s' e' a')) :=
  c5_amended_unwrap_panics (fun _ => none) "x" Endian.little Asm.init rfl

/-- C9: the string unit's character bytes are the UTF-16LE encoding — for a
BMP scalar, low byte then high byte — independent of the endianness
parameter; that parameter reaches only the 4-byte length-prefix write. -/
theorem c9_string_encoding_endianness (s : String) (e : Endian) (a : Asm) :
    ((DumpString.new s e a).1.sect.contents =
      [Datum.num e 4 (utf16leEncode s).length, Datum.raw (utf16leEncode s)]) ∧
      (∀ c : Char, c.toNat < 0x10000 →
        utf16leChar c = [c.toNat % 256, c.toNat / 256]) := by
  constructor
  · simp [DumpString.new, DumpString.ofEncoded, Section.withEndian, Asm.fresh,
      Section.D32, Section.append_bytes]
  · intro c hc
    simp [utf16leChar, hc]

/-- C9 witness. -/
theorem c9_string_encoding_endianness_witness :
    utf16leChar 'h' = [('h').toNat % 256, ('h').toNat / 256] :=
  (c9_string_encoding_endianness "hi" Endian.little Asm.init).2 'h' (by decide)

/-- The size of the plain section a misc-info stream (with a pad request)
converts to. -/
def miscPaddedSize (e : Endian) (pid t : Option Nat) (pad : Nat) (a : Asm) : Nat :=
  let (ms, a') := MiscStream.new e a
  let ms :=
    { ms with process_id := pid, process_create_time := t, pad_to_size := some pad }
  ((ms.intoSection a').1).size

/-- C10: the pad computation is `pad_to_size - current size` as a `u64`;
it is only correct when the requested total is at least the record's natural
24-byte size (declared length 4, flags 4, process id 4, time block 12): then
the converted section's size is exactly the request.  For any smaller
request the subtraction underflows (wraps modulo `2 ^ 64`) and the section's
size is `24 + (2 ^ 64 - (24 - pad))`, not the requested size. -/
theorem c10_pad_underflow (e : Endian) (pid t : Option Nat) (pad : Nat) (a : Asm) :
    (24 ≤ pad → pad < 2 ^ 64 → miscPaddedSize e pid t pad a = pad) ∧
      (pad < 24 → miscPaddedSize e pid t pad a = 24 + (2 ^ 64 - (24 - pad)) ∧
        miscPaddedSize e pid t pad a ≠ pad) := by
  have h2 : ((2 : Int) ^ 64) = 18446744073709551616 := by norm_num
  have hsz : miscPaddedSize e pid t pad a =
      24 + (((pad : Int) - 24) % (18446744073709551616 : Int)).toNat := by
    rcases pid with _ | pv <;> rcases t with _ | tv <;>
      simp [miscPaddedSize, MiscStream.new, MiscStream.intoSection,
        Section.withEndian, Asm.fresh, Asm.bind, Section.D32, Section.D32L,
        Section.append_repeated, Section.size, Datum.width, h2, ← Nat.add_assoc]
  have h2n : (2 : Nat) ^ 64 = 18446744073709551616 := by norm_num
  rw [hsz, h2n]
  constructor
  · intro h1 hlt
    omega
  · intro h1
    omega

/-- C10 witness: a 40-byte pad request is honored exactly; a 10-byte
request (below the natural 24-byte size) underflows and is not honored. -/
theorem c10_pad_underflow_witness :
    miscPaddedSize Endian.little (some 3) none 40 Asm.init = 40 ∧
      miscPaddedSize Endian.little none none 10 Asm.init ≠ 10 :=
  ⟨(c10_pad_underflow Endian.little (some 3) none 40 Asm.init).1 (by norm_num)
      (by norm_num),
    ((c10_pad_underflow Endian.little none none 10 Asm.init).2 (by norm_num)).2⟩

/-- An assembler on which exactly two streams (raw streams with types
`t1`, `t2` and contents `b1`, `b2`) are added via `add_stream`, in that
order. -/
def twoStreamDump (e : Endian) (t1 t2 : Nat) (b1 b2 : List Nat) : SynthMinidump × Asm :=
  let (m, a) := SynthMinidump.with_endian e Asm.init
  let (s1, a) := Section.withEndian e a
  let (m, a) := m.add_stream (SimpleStream.mk t1 (s1.append_bytes b1)) a
  let (s2, a) := Section.withEndian e a
  let (m, a) := m.add_stream (SimpleStream.mk t2 (s2.append_bytes b2)) a
  (m, a)

/-- The bytes `twoStreamDump` finalizes to: a 32-byte header (stream count
2, directory offset right after both stream bodies, default flags 0), the
two stream bodies in add-order, then the two 12-byte directory entries in
add-order, each holding the stream type, the stream's size, and the offset
at which its contents start. -/
def twoStreamBytes (e : Endian) (t1 t2 : Nat) (b1 b2 : List Nat) : List Nat :=
  headerBytes e 2 (32 + b1.length + b2.length) 0 ++
    (b1 ++ (b2 ++
      ((serialize e 4 t1 ++ serialize e 4 b1.length ++ serialize e 4 32) ++
        (serialize e 4 t2 ++ serialize e 4 b2.length ++
          serialize e 4 (32 + b1.length)))))

/-- C1: adding exactly two streams and finishing produces bytes in which
the header's stream-count field is 2, the directory consists of exactly two
12-byte entries in add-order (type, then size, then offset), and each
entry's location-descriptor offset (32 for the first stream, 32 plus the
first body's length for the second) is the byte offset at which that
stream's contents actually start in the output. -/
theorem c1_two_streams_directory (e : Endian) (t1 t2 : Nat) (b1 b2 : List Nat) :
    ((twoStreamDump e t1 t2 b1 b2).1.finish (twoStreamDump e t1 t2 b1 b2).2 =
      some (twoStreamBytes e t1 t2 b1 b2)) ∧
      ((twoStreamBytes e t1 t2 b1 b2).drop 8).take 4 = serialize e 4 2 ∧
      (twoStreamBytes e t1 t2 b1 b2).drop (32 + b1.length + b2.length) =
        (serialize e 4 t1 ++ serialize e 4 b1.length ++ serialize e 4 32) ++
          (serialize e 4 t2 ++ serialize e 4 b2.length ++
            serialize e 4 (32 + b1.length)) ∧
      (serialize e 4 t1 ++ serialize e 4 b1.length ++ serialize e 4 32).length = 12 ∧
      (serialize e 4 t2 ++ serialize e 4 b2.length ++
        serialize e 4 (32 + b1.length)).length = 12 ∧
      ((twoStreamBytes e t1 t2 b1 b2).drop 32).take b1.length = b1 ∧
      ((twoStreamBytes e t1 t2 b1 b2).drop (32 + b1.length)).take b2.length = b2 := by
  refine ⟨?_, ?_, ?_, by simp, by simp, ?_, ?_⟩
  · simp [twoStreamDump, SynthMinidump.with_endian, SynthMinidump.add_stream,
      SynthMinidump.add, SynthMinidump.finish, cite_stream_in, cite_location_in,
      Section.withEndian, Asm.init, Asm.fresh, Asm.bind, Asm.labelValue,
      Section.D32, Section.D64, Section.D32L, Section.D64L, Section.mark,
      Section.append_bytes, Section.append_section, Section.get_contents,
      Section.size, Section.start, Section.final_size, Datum.width,
      resolve, lookupB, resolveDatum, DumpSection.intoSection,
      DumpSection.file_offset, DumpSection.file_size, Stream.stream_type,
      List.mapM_cons, List.mapM_nil, List.mapM.loop, ← Nat.add_assoc,
      twoStreamBytes, headerBytes]
  · have hsh : twoStreamBytes e t1 t2 b1 b2 =
        (serialize e 4 MD_HEADER_SIGNATURE ++ serialize e 4 MD_HEADER_VERSION) ++
          (serialize e 4 2 ++
            (serialize e 4 (32 + b1.length + b2.length) ++ serialize e 4 0 ++
              serialize e 4 1262805309 ++ serialize e 8 0 ++
              (b1 ++ (b2 ++
                ((serialize e 4 t1 ++ serialize e 4 b1.length ++ serialize e 4 32) ++
                  (serialize e 4 t2 ++ serialize e 4 b2.length ++
                    serialize e 4 (32 + b1.length))))))) := by
      simp [twoStreamBytes, headerBytes]
    rw [hsh, List.drop_left' (by simp), List.take_append_of_le_length (by simp),
      List.take_of_length_le (by simp)]
  · have hsh : twoStreamBytes e t1 t2 b1 b2 =
        (headerBytes e 2 (32 + b1.length + b2.length) 0 ++ b1 ++ b2) ++
          ((serialize e 4 t1 ++ serialize e 4 b1.length ++ serialize e 4 32) ++
            (serialize e 4 t2 ++ serialize e 4 b2.length ++
              serialize e 4 (32 + b1.length))) := by
      simp [twoStreamBytes]
    rw [hsh, List.drop_left' (by simp [← Nat.add_assoc])]
  · have hsh : twoStreamBytes e t1 t2 b1 b2 =
        headerBytes e 2 (32 + b1.length + b2.length) 0 ++
          (b1 ++ (b2 ++
            ((serialize e 4 t1 ++ serialize e 4 b1.length ++ serialize e 4 32) ++
              (serialize e 4 t2 ++ serialize e 4 b2.length ++
                serialize e 4 (32 + b1.length))))) := rfl
    rw [hsh, List.drop_left' (by simp), List.take_append_of_le_length (by simp),
      List.take_of_length_le (by simp)]
  · have hsh : twoStreamBytes e t1 t2 b1 b2 =
        (headerBytes e 2 (32 + b1.length + b2.length) 0 ++ b1) ++
          (b2 ++
            ((serialize e 4 t1 ++ serialize e 4 b1.length ++ serialize e 4 32) ++
              (serialize e 4 t2 ++ serialize e 4 b2.length ++
                serialize e 4 (32 + b1.length)))) := by
      simp [twoStreamBytes]
    rw [hsh, List.drop_left' (by simp), List.take_append_of_le_length (by simp),
      List.take_of_length_le (by simp)]

/-- A caller-visible build operation on the assembler: set the flags, add a
plain section (of raw bytes), or add a raw stream. -/
inductive BuildStep : Type
  | setF (v : Nat)
  | addBytes (bs : List Nat)
  | addStream (t : Nat) (bs : List Nat)

/-- Run one build step. -/
def BuildStep.apply : BuildStep → SynthMinidump → Asm → SynthMinidump × Asm
  | .setF v, m, a => m.setFlags v a
  | .addBytes bs, m, a =>
    let (s, a) := Section.withEndian m.sect.endian a
    m.add (s.append_bytes bs) a
  | .addStream t bs, m, a =>
    let (s, a) := Section.withEndian m.sect.endian a
    m.add_stream (SimpleStream.mk t (s.append_bytes bs)) a

/-- Run a sequence of build steps. -/
def runSteps : List BuildStep → SynthMinidump → Asm → SynthMinidump × Asm
  | [], m, a => (m, a)
  | st :: rest, m, a =>
    let (m', a') := st.apply m a
    runSteps rest m' a'

/-- The number of `add_stream` calls in a step sequence. -/
def countStreams : List BuildStep → Nat
  | [] => 0
  | .addStream _ _ :: rest => countStreams rest + 1
  | _ :: rest => countStreams rest

/-- After any step sequence, the stream counter has grown by the number of
`add_stream` steps and the directory by 12 bytes per `add_stream` step. -/
theorem runSteps_invariant (steps : List BuildStep) (m : SynthMinidump) (a : Asm) :
    (runSteps steps m a).1.stream_count = m.stream_count + countStreams steps ∧
      (runSteps steps m a).1.stream_directory.size =
        m.stream_directory.size + 12 * countStreams steps := by
  induction steps generalizing m a with
  | nil => simp [runSteps, countStreams]
  | cons st rest ih =>
    cases st with
    | setF v =>
      rcases ih ((BuildStep.apply (.setF v) m a).1) ((BuildStep.apply (.setF v) m a).2)
        with ⟨ih1, ih2⟩
      refine ⟨?_, ?_⟩ <;>
        simp_all [runSteps, BuildStep.apply, SynthMinidump.setFlags, countStreams]
    | addBytes bs =>
      rcases ih ((BuildStep.apply (.addBytes bs) m a).1)
        ((BuildStep.apply (.addBytes bs) m a).2) with ⟨ih1, ih2⟩
      refine ⟨?_, ?_⟩ <;>
        simp_all [runSteps, BuildStep.apply, SynthMinidump.add, countStreams,
          Section.mark, Section.append_section, DumpSection.intoSection]
    | addStream t bs =>
      rcases ih ((BuildStep.apply (.addStream t bs) m a).1)
        ((BuildStep.apply (.addStream t bs) m a).2) with ⟨ih1, ih2⟩
      refine ⟨?_, ?_⟩ <;>
        simp_all [runSteps, BuildStep.apply, SynthMinidump.add,
          SynthMinidump.add_stream, countStreams, Section.mark,
          Section.append_section, DumpSection.intoSection, cite_stream_in,
          cite_location_in] <;> omega

/-- C8: after any sequence of `flags` / `add` / `add_stream` calls on a
fresh assembler, the stream counter equals the number of `add_stream` calls
and the stream-directory section's size is exactly 12 bytes times the
counter; moreover a single `add` (without `add_stream`) or `flags` call
changes neither the counter nor the directory. -/
theorem c8_stream_counter_directory (steps : List BuildStep) (e : Endian) :
    ((runSteps steps (SynthMinidump.with_endian e Asm.init).1
        (SynthMinidump.with_endian e Asm.init).2).1.stream_count =
      countStreams steps ∧
      (runSteps steps (SynthMinidump.with_endian e Asm.init).1
          (SynthMinidump.with_endian e Asm.init).2).1.stream_directory.size =
        12 * (runSteps steps (SynthMinidump.with_endian e Asm.init).1
          (SynthMinidump.with_endian e Asm.init).2).1.stream_count) ∧
      (∀ (α : Type) (_ : DumpSection α) (m : SynthMinidump) (x : α) (a : Asm),
        (m.add x a).1.stream_count = m.stream_count ∧
          (m.add x a).1.stream_directory = m.stream_directory) ∧
      (∀ (m : SynthMinidump) (v : Nat) (a : Asm),
        (m.setFlags v a).1.stream_count = m.stream_count ∧
          (m.setFlags v a).1.stream_directory = m.stream_directory) := by
  refine ⟨?_, fun α inst m x a => ⟨rfl, rfl⟩, fun m v a => ⟨rfl, rfl⟩⟩
  rcases runSteps_invariant steps (SynthMinidump.with_endian e Asm.init).1
    (SynthMinidump.with_endian e Asm.init).2 with ⟨h1, h2⟩
  have hc : (SynthMinidump.with_endian e Asm.init).1.stream_count = 0 := rfl
  have hd : (SynthMinidump.with_endian e Asm.init).1.stream_directory.size = 0 := rfl
  rw [h1, h2, hc, hd]
  omega

/-- C6: citing any buildable unit whose file-size label resolves to `S` and
whose file-offset label resolves to `O` into a fresh target buffer appends
exactly 8 bytes: `S` as a 4-byte integer followed by `O` as a 4-byte
integer, both in the target buffer's endianness, size before offset.  (The
freshness side conditions say the target's own final-size label is not one
of the cited unit's labels.) -/
theorem c6_cite_location {α : Type} [DumpSection α] (x : α) (target : Section)
    (a : Asm) (S O : Nat)
    (hempty : target.contents = [])
    (hS : lookupB a.env (DumpSection.file_size x) = .constB S)
    (hO : lookupB a.env (DumpSection.file_offset x) = .constB O)
    (hne1 : target.finalSizeL ≠ DumpSection.file_size x)
    (hne2 : target.finalSizeL ≠ DumpSection.file_offset x) :
    (cite_location_in x target).get_contents a =
      some (serialize target.endian 4 S ++ serialize target.endian 4 O) := by
  simp [cite_location_in, Section.D32L, Section.get_contents, Section.size,
    hempty, Datum.width, List.mapM_cons, List.mapM_nil, List.mapM.loop,
    resolveDatum, resolve, lookupB, hne1, hne2, Ne.symm hne1, Ne.symm hne2, hS, hO]

/-- C6 witness: the scenario of `test_section_cite` — a 10-byte unit at
offset `0xff00ee11`. -/
theorem c6_cite_location_witness :
    (cite_location_in (Section.mk Endian.little [Datum.rep 0 10] 101 100)
        (Section.mk Endian.little [] 103 104)).get_contents
      (Asm.mk [(100, .constB 10), (101, .constB 0xff00ee11)] 102) =
      some (serialize Endian.little 4 10 ++ serialize Endian.little 4 0xff00ee11) :=
  c6_cite_location (Section.mk Endian.little [Datum.rep 0 10] 101 100)
    (Section.mk Endian.little [] 103 104)
    (Asm.mk [(100, .constB 10), (101, .constB 0xff00ee11)] 102) 10 0xff00ee11
    rfl (by decide) (by decide) (by decide) (by decide)

/-! Validation: the embedding reproduces the repository's own unit tests
byte for byte (`test_dump_header`, `test_dump_header_bigendian`,
`test_dump_string`, `test_simple_stream`). -/

example :
    (let (m, a) := SynthMinidump.with_endian Endian.little Asm.init
     let (m, a) := m.setFlags 0x9f738b33685cc84c a
     m.finish a) =
      some [0x4d, 0x44, 0x4d, 0x50, 0x93, 0xa7, 0x00, 0x00, 0, 0, 0, 0,
        0x20, 0, 0, 0, 0, 0, 0, 0, 0x3d, 0xe1, 0x44, 0x4b,
        0x4c, 0xc8, 0x5c, 0x68, 0x33, 0x8b, 0x73, 0x9f] := by decide

example :
    (let (m, a) := SynthMinidump.with_endian Endian.big Asm.init
     let (m, a) := m.setFlags 0x9f738b33685cc84c a
     m.finish a) =
      some [0x50, 0x4d, 0x44, 0x4d, 0x00, 0x00, 0xa7, 0x93, 0, 0, 0, 0,
        0, 0, 0, 0x20, 0, 0, 0, 0, 0x4b, 0x44, 0xe1, 0x3d,
        0x9f, 0x73, 0x8b, 0x33, 0x68, 0x5c, 0xc8, 0x4c] := by decide

example :
    (let a := Asm.init
     let (m, a) := SynthMinidump.with_endian Endian.little a
     let (s, a) := DumpString.new "hello" Endian.little a
     let (m, a) := m.add s a
     (m.finish a).map (fun bs => bs.drop 32)) =
      some [0xa, 0x0, 0x0, 0x0, 0x68, 0x0, 0x65, 0x0, 0x6c, 0x0, 0x6c, 0x0,
        0x6f, 0x0] := by decide

example :
    (let a := Asm.init
     let (sec, a) := Section.withEndian Endian.little a
     let sec := sec.D32 0x55667788
     let (m, a) := SynthMinidump.with_endian Endian.little a
     let (m, a) := m.setFlags 0x9f738b33685cc84c a
     let (m, a) := m.add_stream (SimpleStream.mk 0x11223344 sec) a
     m.finish a) =
      some [0x4d, 0x44, 0x4d, 0x50, 0x93, 0xa7, 0x00, 0x00, 1, 0, 0, 0,
        0x24, 0, 0, 0, 0, 0, 0, 0, 0x3d, 0xe1, 0x44, 0x4b,
        0x4c, 0xc8, 0x5c, 0x68, 0x33, 0x8b, 0x73, 0x9f,
        0x88, 0x77, 0x66, 0x55,
        0x44, 0x33, 0x22, 0x11, 4, 0, 0, 0, 0x20, 0, 0, 0] := by decide

end Minidump
